import Mathlib

/-!
Formal model of the core of `local_rag_persona_simulator`.

The Python sources are embedded shallowly: strings are Lean `String`s
(manipulated through their underlying `List Char`), Python exceptions are
`Except` values or explicit failure flags, and the ChromaDB persistence layer
is modelled as a map from client path to the list of collection names stored
there.  Each definition names the Python function it embeds.
-/

set_option autoImplicit false

namespace LocalRagPersonaSimulator

instance {ε α : Type} [DecidableEq ε] [DecidableEq α] : DecidableEq (Except ε α) :=
  fun x y =>
    match x, y with
    | .ok a, .ok b =>
      if h : a = b then .isTrue (by rw [h]) else .isFalse (by simp [h])
    | .error a, .error b =>
      if h : a = b then .isTrue (by rw [h]) else .isFalse (by simp [h])
    | .ok _, .error _ => .isFalse (fun h => Except.noConfusion h)
    | .error _, .ok _ => .isFalse (fun h => Except.noConfusion h)

/-! ### Python string primitives -/

/-- Characters treated as whitespace by Python's `str.split()` / `str.strip()`:
space, tab, newline, carriage return, vertical tab, form feed. -/
def pySpace (c : Char) : Bool :=
  c = ' ' || c = '\t' || c = '\n' || c = '\r' || c = '\x0b' || c = '\x0c'

/-- Worker for `pyWords`: `cur` is the current in-progress word, reversed. -/
def pyWordsAux (cur : List Char) : List Char → List (List Char)
  | [] => if cur.isEmpty then [] else [cur.reverse]
  | c :: cs =>
    if pySpace c then
      if cur.isEmpty then pyWordsAux [] cs else cur.reverse :: pyWordsAux [] cs
    else pyWordsAux (c :: cur) cs

/-- Python `str.split()` with no argument: maximal runs of non-whitespace
characters; leading/trailing/repeated whitespace produces no empty words. -/
def pyWords (l : List Char) : List (List Char) := pyWordsAux [] l

/-- Python `sep.join(words)` at the character-list level. -/
def pyJoinL (sep : List Char) : List (List Char) → List Char
  | [] => []
  | [w] => w
  | w :: ws => w ++ sep ++ pyJoinL sep ws

/-- Python `sep.join(strings)`. -/
def pyJoin (sep : String) : List String → String
  | [] => ""
  | [s] => s
  | s :: ss => s ++ sep ++ pyJoin sep ss

/-- Python `str.strip()` on a character list: remove leading and trailing
whitespace. -/
def pyStripL (l : List Char) : List Char :=
  ((l.dropWhile pySpace).reverse.dropWhile pySpace).reverse

/-- Python `str.strip()`. -/
def pyStrip (s : String) : String := String.mk (pyStripL s.data)

/-- Python `str.isdigit()` (restricted to ASCII digits): nonempty and all
characters are digits. -/
def pyIsDigit (s : String) : Bool := !s.data.isEmpty && s.data.all Char.isDigit

/-- Python `str.split(c)` for a single-character separator: splits at every
occurrence, keeping empty pieces. -/
def splitOnChar (c : Char) : List Char → List (List Char)
  | [] => [[]]
  | x :: xs =>
    if x = c then [] :: splitOnChar c xs
    else
      match splitOnChar c xs with
      | [] => [[x]]
      | y :: ys => (x :: y) :: ys

/-- Python `str.split("\n\n")`: splits at each non-overlapping occurrence of
two consecutive newlines, scanning left to right, keeping empty pieces. -/
def splitNlNl : List Char → List (List Char)
  | [] => [[]]
  | ['\n'] => [['\n']]
  | '\n' :: '\n' :: rest => [] :: splitNlNl rest
  | c :: rest =>
    match splitNlNl rest with
    | [] => [[c]]
    | y :: ys => (c :: y) :: ys

/-! ### `utils/text_utils.py` — `split_into_chunks` -/

/-- Fueled model of Python `range(start, stop, step)` for a positive `step`
(the fuel bounds the number of iterations; `stop - start` iterations always
suffice when `1 ≤ step`). -/
def upRangeF : Nat → Nat → Nat → Nat → List Nat
  | 0, _, _, _ => []
  | fuel + 1, start, stop, step =>
    if start < stop then start :: upRangeF fuel (start + step) stop step else []

/-- Python `range(start, stop, step)` for a positive `step`. -/
def upRange (start stop step : Nat) : List Nat :=
  upRangeF (stop - start) start stop step

/-- `text_utils.split_into_chunks(text, chunk_size, overlap)`
(src/local_rag_persona_simulator/utils/text_utils.py, lines 167-195).
Raising `ValueError` is modelled by `Except.error` carrying the message. -/
def split_into_chunks (text : String) (chunk_size : Int) (overlap : Int) :
    Except String (List String) :=
  if chunk_size ≤ 0 then .error "chunk_size must be positive"
  else if overlap < 0 ∨ overlap ≥ chunk_size then
    .error "overlap must be non-negative and less than chunk_size"
  else
    let words := pyWords text.data
    let chunks := (upRange 0 words.length (chunk_size - overlap).toNat).map
      fun i => String.mk (pyJoinL [' '] ((words.drop i).take chunk_size.toNat))
    .ok chunks

/-! ### `core/rag.py` — collection keys -/

/-- Python `persona_name.replace(' ', '_')`: single-character replacement is a
character-wise map. -/
def pyReplaceSpaceUnderscore (l : List Char) : List Char :=
  l.map fun c => if c = ' ' then '_' else c

/-- Python `str.lower()` character-wise (ASCII case folding). -/
def pyLowerChars (l : List Char) : List Char := l.map Char.toLower

/-- The default collection name computed in `RAGPipeline.__init__`
(rag.py line 33): `f"persona_{persona_name.replace(' ', '_').lower()}"`. -/
def initCollectionName (persona_name : String) : String :=
  "persona_" ++ String.mk (pyLowerChars (pyReplaceSpaceUnderscore persona_name.data))

/-- The collection name computed in `PersonaKnowledgeBase.delete_persona`
(rag.py line 243): the same expression as in `RAGPipeline.__init__`. -/
def deleteCollectionName (persona_name : String) : String :=
  "persona_" ++ String.mk (pyLowerChars (pyReplaceSpaceUnderscore persona_name.data))

/-- The collection name computed in `PersonaKnowledgeBase.persona_exists`
(rag.py line 268): the same expression as in `RAGPipeline.__init__`. -/
def existsCollectionName (persona_name : String) : String :=
  "persona_" ++ String.mk (pyLowerChars (pyReplaceSpaceUnderscore persona_name.data))

/-! ### `core/rag.py` — persisted storage model -/

/-- The persisted ChromaDB world: for every client path, the list of
collection names stored by the ChromaDB instance rooted at that path.
Distinct paths are distinct, fully independent ChromaDB databases. -/
structure ChromaStore where
  collections : String → List String

/-- `RAGPipeline._create_vectorstore` (rag.py line 56) roots its
`chromadb.PersistentClient` at `get_chroma_path() / collection_name`,
i.e. a per-collection subdirectory of the chroma root. -/
def pipelinePersistDir (chromaRoot collection_name : String) : String :=
  chromaRoot ++ "/" ++ collection_name

/-- Effect on persisted storage of a successful `RAGPipeline.add_text` /
`add_transcript` (rag.py lines 70-139): the vectorstore client lives at
`pipelinePersistDir`, and adding the first chunk creates the collection
there (Chroma's get-or-create semantics). -/
def addTextStore (store : ChromaStore) (chromaRoot persona_name : String) :
    ChromaStore :=
  let key := initCollectionName persona_name
  let path := pipelinePersistDir chromaRoot key
  ⟨fun p =>
    if p = path then
      if (store.collections p).contains key then store.collections p
      else key :: store.collections p
    else store.collections p⟩

/-- `PersonaKnowledgeBase.persona_exists` (rag.py lines 266-278): builds a
`chromadb.PersistentClient` rooted at `get_chroma_path()` itself and asks
whether the derived collection name occurs among that client's collections
(`collection_name in [c.name for c in collections]`).  The surrounding
`try`/`except` only turns storage failures into `False`; a successful listing
is modelled here. -/
def persona_exists (store : ChromaStore) (chromaRoot persona_name : String) :
    Bool :=
  (store.collections chromaRoot).contains (existsCollectionName persona_name)

/-! ### `core/rag.py` — search, context assembly, stats, delete -/

/-- One `(Document, score)` pair as returned by the underlying
`vectorstore.similarity_search_with_score` call.  Only the `source` entry of
the metadata dict is ever read downstream, so the metadata is modelled as
that optional entry; the floating-point score is modelled opaquely. -/
structure ScoredDoc where
  page_content : String
  source : Option String
  score : Int
deriving DecidableEq

/-- One entry of the list returned by `RAGPipeline.similarity_search`. -/
structure SearchResult where
  content : String
  source : Option String
  score : Int
deriving DecidableEq

/-- `RAGPipeline.similarity_search` (rag.py lines 141-173), as a function of
the outcome of the underlying storage query.  The method body contains no
`try`/`except`, so a failing storage call propagates to the caller. -/
def similarity_search (searchOutcome : Except String (List ScoredDoc)) :
    Except String (List SearchResult) :=
  match searchOutcome with
  | .error e => .error e
  | .ok docs => .ok (docs.map fun d => ⟨d.page_content, d.source, d.score⟩)

/-- The fixed sentinel returned by `RAGPipeline.get_relevant_context` when the
search yields no results (rag.py line 189). -/
def noContextSentinel : String := "No relevant context found."

/-- The fixed separator joining context blocks (rag.py line 195). -/
def contextSeparator : String := "\n\n---\n\n"

/-- One context block (rag.py line 192):
`f"[Source: {r['metadata'].get('source', 'unknown')}]\n{r['content']}"`. -/
def renderContextPart (r : SearchResult) : String :=
  "[Source: " ++ r.source.getD "unknown" ++ "]\n" ++ r.content

/-- `RAGPipeline.get_relevant_context` (rag.py lines 175-195): calls
`similarity_search` (whose failure would propagate), returns the sentinel if
the result list is empty, otherwise the rendered blocks joined by the fixed
separator, in the order the search returned them. -/
def get_relevant_context (searchOutcome : Except String (List ScoredDoc)) :
    Except String String :=
  match similarity_search searchOutcome with
  | .error e => .error e
  | .ok results =>
    .ok (if results.isEmpty then noContextSentinel
         else pyJoin contextSeparator (results.map renderContextPart))

/-- The dict returned by `RAGPipeline.get_collection_stats`. -/
structure CollectionStats where
  persona : String
  collection_name : String
  document_count : Nat
deriving DecidableEq

/-- `RAGPipeline.get_collection_stats` (rag.py lines 197-211), as a function
of the outcome of the underlying `._collection.count()` access: the
`try`/`except Exception` maps any storage failure to a document count of 0. -/
def get_collection_stats (persona_name collection_name : String)
    (countOutcome : Except String Nat) : CollectionStats :=
  match countOutcome with
  | .ok n => ⟨persona_name, collection_name, n⟩
  | .error _ => ⟨persona_name, collection_name, 0⟩

/-- Outcomes of the storage operations attempted inside
`PersonaKnowledgeBase.delete_persona` (rag.py lines 241-260).
`client.delete_collection` raises when the collection does not exist, so a
persona that is absent is one instance of `deleteCollectionFails = true`. -/
structure DeleteOutcomes where
  deleteCollectionFails : Bool
  personaFileExists : Bool
  unlinkFails : Bool
deriving DecidableEq

/-- `PersonaKnowledgeBase.delete_persona` (rag.py lines 241-260): the whole
body runs inside `try`; any exception in deleting the collection or unlinking
the persona metadata file yields `False`, full success yields `True`.  The
function is total and Bool-valued: it never raises. -/
def delete_persona (env : DeleteOutcomes) : Bool :=
  if env.deleteCollectionFails then false
  else if env.personaFileExists then !env.unlinkFails
  else true

/-! ### `core/transcript.py` — SRT caption normalization -/

/-- `TranscriptFetcher._parse_srt_subtitles` (transcript.py lines 263-274):
strip the whole payload, split into blocks on `"\n\n"`, split each stripped
block into lines, skip the first two lines of a block when it has more than
two lines, keep a line when its stripped form is nonempty and not all digits,
collect the stripped kept lines across blocks in order, join with spaces. -/
def parse_srt_subtitles (srt_text : String) : String :=
  let blocks := splitNlNl (pyStripL srt_text.data)
  let lines := blocks.flatMap fun block =>
    let block_lines := (splitOnChar '\n' (pyStripL block)).map String.mk
    ((block_lines.drop (if block_lines.length > 2 then 2 else 0)).filter
      fun line => !(pyStrip line).data.isEmpty && !pyIsDigit (pyStrip line)).map
      pyStrip
  pyJoin " " lines

/-- The line-timed normalization exactly as the specification words it
(spec.md §4.1 step 4): split into blank-line-separated blocks; drop the first
two lines of every block unless a block has two or fewer lines, in which case
keep all of it; from remaining lines, drop lines that are purely numeric;
join surviving lines (trimmed) with single spaces. -/
def parse_srt_claimed (srt_text : String) : String :=
  let blocks := splitNlNl (pyStripL srt_text.data)
  let remaining := blocks.flatMap fun block =>
    let block_lines := (splitOnChar '\n' (pyStripL block)).map String.mk
    block_lines.drop (if block_lines.length ≤ 2 then 0 else 2)
  let surviving := remaining.filter fun line => !pyIsDigit (pyStrip line)
  pyJoin " " (surviving.map pyStrip)

/-- The specification's line-timed normalization amended minimally: a
remaining line survives only if it is, after trimming, nonempty and not
purely numeric. -/
def parse_srt_amended (srt_text : String) : String :=
  let blocks := splitNlNl (pyStripL srt_text.data)
  let remaining := blocks.flatMap fun block =>
    let block_lines := (splitOnChar '\n' (pyStripL block)).map String.mk
    block_lines.drop (if block_lines.length ≤ 2 then 0 else 2)
  let surviving := remaining.filter
    fun line => !(pyStrip line).data.isEmpty && !pyIsDigit (pyStrip line)
  pyJoin " " (surviving.map pyStrip)

/-! ### Lemmas: `upRange` -/

theorem upRangeF_eq_map (step : Nat) (hs : 0 < step) :
    ∀ (fuel start stop : Nat), stop - start ≤ fuel →
      upRangeF fuel start stop step =
        (List.range ((stop - start + step - 1) / step)).map
          fun j => start + j * step := by
  intro fuel
  induction fuel with
  | zero =>
    intro start stop h
    have h1 : stop - start = 0 := by omega
    have h2 : (stop - start + step - 1) / step = 0 := by
      rw [h1]; exact Nat.div_eq_of_lt (by omega)
    simp [upRangeF, h2]
  | succ n ih =>
    intro start stop h
    by_cases hlt : start < stop
    · have hstep : upRangeF (n + 1) start stop step =
          start :: upRangeF n (start + step) stop step := by
        simp [upRangeF, hlt]
      rw [hstep, ih (start + step) stop (by omega)]
      obtain ⟨u, hu⟩ : ∃ u, stop - start = u + 1 := ⟨stop - start - 1, by omega⟩
      have hc : (stop - start + step - 1) / step =
          (stop - (start + step) + step - 1) / step + 1 := by
        rw [hu]
        have h3 : u + 1 + step - 1 = u + step := by omega
        rw [h3, Nat.add_div_right _ hs]
        have h4 : stop - (start + step) = u + 1 - step := by omega
        rw [h4]
        by_cases hus : u + 1 ≤ step
        · have h5 : u + 1 - step = 0 := by omega
          rw [h5]
          have h6 : 0 + step - 1 = step - 1 := by omega
          rw [h6, Nat.div_eq_of_lt (by omega), Nat.div_eq_of_lt (by omega)]
        · have h7 : u + 1 - step + step - 1 = u := by omega
          rw [h7]
      rw [hc, List.range_succ_eq_map, List.map_cons, List.map_map]
      refine congrArg₂ List.cons (by simp) ?_
      refine List.map_congr_left fun j _ => ?_
      simp [Function.comp, Nat.succ_mul, Nat.add_mul]
      omega
    · have h1 : stop - start = 0 := by omega
      have h2 : (stop - start + step - 1) / step = 0 := by
        rw [h1]; exact Nat.div_eq_of_lt (by omega)
      simp [upRangeF, hlt, h2]

theorem upRange_eq_map (stop step : Nat) (hs : 0 < step) :
    upRange 0 stop step =
      (List.range ((stop + step - 1) / step)).map fun j => j * step := by
  have h := upRangeF_eq_map step hs (stop - 0) 0 stop (by omega)
  simpa [upRange] using h

/-! ### Lemmas: `pyWords` -/

theorem reverse_ne_nil {α : Type} {w : List α} (h : w ≠ []) : w.reverse ≠ [] :=
  fun hrev => h (by simpa using congrArg List.reverse hrev)

theorem not_isEmpty_of_ne_nil {α : Type} {w : List α} (h : w ≠ []) :
    ¬w.isEmpty := by
  simpa [List.isEmpty_iff] using h

/-- Every word produced by the Python splitter is nonempty and contains no
whitespace character. -/
theorem pyWordsAux_wf :
    ∀ (l cur : List Char), (∀ c ∈ cur, pySpace c = false) →
      ∀ w ∈ pyWordsAux cur l, w ≠ [] ∧ ∀ c ∈ w, pySpace c = false := by
  intro l
  induction l with
  | nil =>
    intro cur hcur w hw
    by_cases hc : cur.isEmpty
    · simp [pyWordsAux, hc] at hw
    · simp [pyWordsAux, hc] at hw
      subst hw
      have hcur_ne : cur ≠ [] := by simpa [List.isEmpty_iff] using hc
      refine ⟨reverse_ne_nil hcur_ne, ?_⟩
      intro c hcmem
      exact hcur c (by simpa using hcmem)
  | cons x xs ih =>
    intro cur hcur w hw
    by_cases hx : pySpace x
    · by_cases hc : cur.isEmpty
      · simp [pyWordsAux, hx, hc] at hw
        exact ih [] (by simp) w hw
      · simp [pyWordsAux, hx, hc] at hw
        rcases hw with hw | hw
        · subst hw
          have hcur_ne : cur ≠ [] := by simpa [List.isEmpty_iff] using hc
          refine ⟨reverse_ne_nil hcur_ne, ?_⟩
          intro c hcmem
          exact hcur c (by simpa using hcmem)
        · exact ih [] (by simp) w hw
    · simp only [pyWordsAux, if_neg hx] at hw
      refine ih (x :: cur) ?_ w hw
      intro c hcmem
      rcases List.mem_cons.mp hcmem with h | h
      · subst h; simpa using hx
      · exact hcur c h

theorem pyWords_wf (l : List Char) :
    ∀ w ∈ pyWords l, w ≠ [] ∧ ∀ c ∈ w, pySpace c = false :=
  pyWordsAux_wf l [] (by simp)

/-- Feeding a whitespace-free word into the splitter just extends the current
accumulator. -/
theorem pyWordsAux_append (w : List Char) (hw : ∀ c ∈ w, pySpace c = false) :
    ∀ (cur rest : List Char),
      pyWordsAux cur (w ++ rest) = pyWordsAux (w.reverse ++ cur) rest := by
  induction w with
  | nil => intro cur rest; simp
  | cons x xs ih =>
    intro cur rest
    have hx : pySpace x = false := hw x (by simp)
    have hxs : ∀ c ∈ xs, pySpace c = false := fun c hc => hw c (by simp [hc])
    have h1 : pyWordsAux cur ((x :: xs) ++ rest) =
        pyWordsAux (x :: cur) (xs ++ rest) := by
      show pyWordsAux cur (x :: (xs ++ rest)) = _
      simp [pyWordsAux, hx]
    rw [h1, ih hxs (x :: cur) rest]
    simp

/-- Hitting a space with a nonempty accumulator emits the accumulated word. -/
theorem pyWordsAux_space (cur rest : List Char) (h : ¬cur.isEmpty) :
    pyWordsAux cur (' ' :: rest) = cur.reverse :: pyWordsAux [] rest := by
  simp [pyWordsAux, pySpace, h]

/-- Round trip: splitting the single-space join of nonempty, whitespace-free
words recovers exactly those words. -/
theorem pyWords_joinL (ws : List (List Char))
    (h : ∀ w ∈ ws, w ≠ [] ∧ ∀ c ∈ w, pySpace c = false) :
    pyWords (pyJoinL [' '] ws) = ws := by
  induction ws with
  | nil => rfl
  | cons w ws ih =>
    obtain ⟨hne, hns⟩ := h w (by simp)
    cases ws with
    | nil =>
      have h2 := pyWordsAux_append w hns [] []
      simp only [List.append_nil] at h2
      show pyWordsAux [] w = [w]
      rw [h2]
      have h3 : ¬w.reverse.isEmpty := not_isEmpty_of_ne_nil (reverse_ne_nil hne)
      simp [pyWordsAux, h3]
    | cons x ws2 =>
      have hjoin : pyJoinL [' '] (w :: x :: ws2) =
          w ++ (' ' :: pyJoinL [' '] (x :: ws2)) := by
        simp [pyJoinL]
      rw [hjoin]
      show pyWordsAux [] (w ++ (' ' :: pyJoinL [' '] (x :: ws2))) = _
      rw [pyWordsAux_append w hns [] _, List.append_nil]
      rw [pyWordsAux_space _ _ (not_isEmpty_of_ne_nil (reverse_ne_nil hne))]
      rw [List.reverse_reverse]
      exact congrArg (w :: ·) (ih fun v hv => h v (by simp [hv]))

/-! ### Lemmas: `split_into_chunks` -/

/-- For valid parameters, `split_into_chunks` succeeds and the chunk list is
the image of `ceil(len(words) / step)` window offsets. -/
theorem split_into_chunks_ok (text : String) (w o : Int)
    (hw : 0 < w) (ho : 0 ≤ o) (how : o < w) :
    split_into_chunks text w o =
      .ok ((List.range
            (((pyWords text.data).length + (w - o).toNat - 1) / (w - o).toNat)).map
        fun k => String.mk (pyJoinL [' ']
          (((pyWords text.data).drop (k * (w - o).toNat)).take w.toNat))) := by
  have hs : 0 < (w - o).toNat := by omega
  rw [split_into_chunks, if_neg (by omega), if_neg (by omega)]
  dsimp only
  rw [upRange_eq_map _ _ hs, List.map_map]
  rfl

/-- The tokens of one produced chunk are exactly the corresponding window of
the original token list. -/
theorem chunk_tokens (words : List (List Char))
    (hwf : ∀ v ∈ words, v ≠ [] ∧ ∀ c ∈ v, pySpace c = false)
    (i n : Nat) :
    pyWords (String.mk (pyJoinL [' '] ((words.drop i).take n))).data =
      (words.drop i).take n := by
  refine pyWords_joinL _ fun v hv => ?_
  exact hwf v (List.drop_subset i words (List.take_subset n _ hv))

/-- Concatenating the first `step` tokens of each window reconstructs a
front segment of the token list. -/
theorem join_window_heads {α : Type} (step : Nat) :
    ∀ (m : Nat) (l : List α),
      ((List.range m).map fun k => (l.drop (k * step)).take step).flatten =
        l.take (m * step) := by
  intro m
  induction m with
  | zero => intro l; simp
  | succ n ih =>
    intro l
    rw [List.range_succ_eq_map, List.map_cons, List.map_map, List.flatten_cons]
    have h1 : (List.range n).map ((fun k => (l.drop (k * step)).take step) ∘ Nat.succ) =
        (List.range n).map fun k => ((l.drop step).drop (k * step)).take step := by
      refine List.map_congr_left fun j _ => ?_
      simp only [Function.comp, List.drop_drop]
      have : Nat.succ j * step = step + j * step := by
        simp [Nat.succ_mul]; omega
      rw [this]
    rw [h1, ih (l.drop step)]
    have h2 : (n + 1) * step = step + n * step := by
      simp [Nat.succ_mul]; omega
    rw [h2, List.take_add]
    simp

/-- `ceil(L / step) · step` covers `L`. -/
theorem ceil_mul_ge (L step : Nat) (hs : 0 < step) :
    L ≤ ((L + step - 1) / step) * step := by
  have hd := Nat.div_add_mod (L + step - 1) step
  have hr : (L + step - 1) % step < step := Nat.mod_lt _ hs
  rw [Nat.mul_comm]
  generalize step * ((L + step - 1) / step) = m at hd ⊢
  omega

/-! ### Claim theorems -/

/-- C1: for every text and every `window_size > 0`,
`0 ≤ overlap < window_size`, `split_into_chunks` splits the text into
whitespace-delimited tokens and returns, at each offset
`i = 0, step, 2·step, …` with `step = window_size − overlap`, the chunk made
of tokens `[i, i + window_size)` joined by single spaces; the result has
exactly `ceil(len(tokens) / step)` chunks and is empty when the text is
empty. -/
theorem claim_C1 (text : String) (window_size overlap : Int)
    (hw : 0 < window_size) (ho : 0 ≤ overlap) (how : overlap < window_size) :
    ∃ chunks : List String,
      split_into_chunks text window_size overlap = .ok chunks ∧
      chunks.length =
        ((pyWords text.data).length + (window_size - overlap).toNat - 1) /
          (window_size - overlap).toNat ∧
      (∀ k, k < chunks.length →
        chunks.getD k "" =
          String.mk (pyJoinL [' ']
            (((pyWords text.data).drop (k * (window_size - overlap).toNat)).take
              window_size.toNat))) ∧
      (text = "" → chunks = []) := by
  have hs : 0 < (window_size - overlap).toNat := by omega
  refine ⟨_, split_into_chunks_ok text window_size overlap hw ho how, ?_, ?_, ?_⟩
  · simp
  · intro k hk
    simp only [List.length_map, List.length_range] at hk
    rw [List.getD_eq_getElem?_getD, List.getElem?_map]
    rw [List.getElem?_range hk]
    rfl
  · intro htext
    subst htext
    have h0 : (pyWords (String.data "")).length = 0 := rfl
    have h1 : ((pyWords (String.data "")).length + (window_size - overlap).toNat - 1) /
        (window_size - overlap).toNat = 0 := by
      rw [h0]; exact Nat.div_eq_of_lt (by omega)
    rw [h1]
    rfl

/-- Looking up the `j`-th chunk of the produced chunk list. -/
theorem chunks_getD (words : List (List Char)) (s W j cnt : Nat) (hj : j < cnt) :
    ((List.range cnt).map fun i =>
      String.mk (pyJoinL [' '] ((words.drop (i * s)).take W))).getD j "" =
      String.mk (pyJoinL [' '] ((words.drop (j * s)).take W)) := by
  rw [List.getD_eq_getElem?_getD, List.getElem?_map, List.getElem?_range hj]
  rfl

/-- Boundary sharing of two consecutive windows when the earlier one is
full. -/
theorem window_boundary {α : Type} (l : List α) (s W O k : Nat)
    (hWO : W - O = s) (hsW : s ≤ W) (hOW : O ≤ W)
    (hfull : ((l.drop (k * s)).take W).length = W) :
    ((l.drop (k * s)).take W).drop (W - O) =
      ((l.drop ((k + 1) * s)).take W).take O ∧
    (((l.drop ((k + 1) * s)).take W).take O).length = O := by
  have h4 : (k + 1) * s = k * s + s := Nat.succ_mul k s
  rw [List.length_take, List.length_drop] at hfull
  have hlen : l.length - k * s ≥ W := by omega
  constructor
  · rw [hWO, List.drop_take, List.drop_drop, List.take_take]
    have h2 : W - s = O := by omega
    have h3 : min O W = O := by omega
    rw [h2, h3, h4]
  · rw [List.take_take]
    have h3 : min O W = O := by omega
    rw [h3, List.length_take, List.length_drop, h4]
    omega

/-- C2, corrected: every chunk has at most `window_size` tokens, and a
consecutive pair of chunks shares exactly `overlap` tokens at the boundary
whenever the earlier chunk of the pair is full (has exactly `window_size`
tokens); trailing chunks shortened by the end of the token list — not only
the final one — may share fewer. -/
theorem claim_C2 (text : String) (window_size overlap : Int)
    (hw : 0 < window_size) (ho : 0 ≤ overlap) (how : overlap < window_size) :
    ∃ chunks : List String,
      split_into_chunks text window_size overlap = .ok chunks ∧
      (∀ chunk ∈ chunks, (pyWords chunk.data).length ≤ window_size.toNat) ∧
      (∀ k, k + 1 < chunks.length →
        (pyWords (chunks.getD k "").data).length = window_size.toNat →
          (pyWords (chunks.getD k "").data).drop
              (window_size.toNat - overlap.toNat) =
            (pyWords (chunks.getD (k + 1) "").data).take overlap.toNat ∧
          ((pyWords (chunks.getD (k + 1) "").data).take overlap.toNat).length =
            overlap.toNat) := by
  have hs : 0 < (window_size - overlap).toNat := by omega
  have hwf := pyWords_wf text.data
  refine ⟨_, split_into_chunks_ok text window_size overlap hw ho how, ?_, ?_⟩
  · intro chunk hchunk
    obtain ⟨k, _, hck⟩ := List.mem_map.mp hchunk
    rw [← hck, chunk_tokens (pyWords text.data) hwf _ _]
    exact List.length_take_le _ _
  · intro k hk1 hfull
    simp only [List.length_map, List.length_range] at hk1
    rw [chunks_getD _ _ _ k _ (by omega)] at hfull
    rw [chunks_getD _ _ _ k _ (by omega), chunks_getD _ _ _ (k + 1) _ hk1]
    rw [chunk_tokens _ hwf _ _] at hfull
    rw [chunk_tokens _ hwf _ _, chunk_tokens _ hwf _ _]
    exact window_boundary (pyWords text.data) ((window_size - overlap).toNat)
      window_size.toNat overlap.toNat k (by omega) (by omega) (by omega) hfull

/-- C2 witness: concrete instance `split_into_chunks "a b c d e" 3 1`. -/
theorem claim_C2_witness :
    ((0 : Int) < 3 ∧ (0 : Int) ≤ 1 ∧ (1 : Int) < 3) ∧
    (∃ chunks : List String,
      split_into_chunks "a b c d e" 3 1 = .ok chunks ∧
      (∀ chunk ∈ chunks, (pyWords chunk.data).length ≤ ((3 : Int)).toNat) ∧
      (∀ k, k + 1 < chunks.length →
        (pyWords (chunks.getD k "").data).length = ((3 : Int)).toNat →
          (pyWords (chunks.getD k "").data).drop
              (((3 : Int)).toNat - ((1 : Int)).toNat) =
            (pyWords (chunks.getD (k + 1) "").data).take ((1 : Int)).toNat ∧
          ((pyWords (chunks.getD (k + 1) "").data).take
              ((1 : Int)).toNat).length = ((1 : Int)).toNat)) :=
  ⟨⟨by decide, by decide, by decide⟩,
    claim_C2 "a b c d e" 3 1 (by decide) (by decide) (by decide)⟩

/-- C2 counterexample: with tokens `a b c d e`, `window_size = 4`,
`overlap = 3`, the chunks are `["a b c d", "b c d e", "c d e", "d e", "e"]`;
the consecutive pair at indices 2 and 3 — neither of which is the final
chunk — shares only the 2 boundary tokens `d e`, not `overlap = 3`: the last
3 tokens of `"c d e"` differ from the first `min 3 2 = 2` tokens of
`"d e"`. -/
theorem claim_C2_counterexample :
    split_into_chunks "a b c d e" 4 3 =
      .ok ["a b c d", "b c d e", "c d e", "d e", "e"] ∧
    (pyWords ("c d e" : String).data).drop
        ((pyWords ("c d e" : String).data).length - 3) ≠
      (pyWords ("d e" : String).data).take 3 ∧
    ((pyWords ("d e" : String).data).take 3).length ≠ 3 ∧
    ("d e" : String) ≠ "e" := by decide

/-- C3: concatenating each chunk's unique (first `step`) token span, in
order, reconstructs the whitespace-delimited token sequence of the input. -/
theorem claim_C3 (text : String) (window_size overlap : Int)
    (hw : 0 < window_size) (ho : 0 ≤ overlap) (how : overlap < window_size) :
    ∃ chunks : List String,
      split_into_chunks text window_size overlap = .ok chunks ∧
      ((List.range chunks.length).map fun k =>
          (pyWords (chunks.getD k "").data).take
            (window_size - overlap).toNat).flatten =
        pyWords text.data := by
  have hs : 0 < (window_size - overlap).toNat := by omega
  set words := pyWords text.data with hwords
  have hwf := pyWords_wf text.data
  set s := (window_size - overlap).toNat with hsdef
  set W := window_size.toNat with hWdef
  have hsW : s ≤ W := by omega
  set cnt := (words.length + s - 1) / s with hcnt
  refine ⟨_, split_into_chunks_ok text window_size overlap hw ho how, ?_⟩
  have hlen : ((List.range cnt).map fun i =>
      String.mk (pyJoinL [' '] ((words.drop (i * s)).take W))).length = cnt := by
    simp
  rw [hlen]
  have hmap : (List.range cnt).map (fun k =>
      (pyWords ((((List.range cnt).map fun i =>
        String.mk (pyJoinL [' ']
          ((words.drop (i * s)).take W))).getD k "")).data).take s) =
      (List.range cnt).map fun k => (words.drop (k * s)).take s := by
    refine List.map_congr_left fun k hk => ?_
    have hklt : k < cnt := List.mem_range.mp hk
    rw [List.getD_eq_getElem?_getD, List.getElem?_map, List.getElem?_range hklt]
    show (pyWords (String.mk (pyJoinL [' ']
      ((words.drop (k * s)).take W))).data).take s = _
    rw [chunk_tokens words hwf _ _, List.take_take, min_eq_left hsW]
  rw [hmap, join_window_heads s cnt words]
  exact List.take_of_length_le (ceil_mul_ge words.length s hs)

/-- C3 witness: concrete instance `split_into_chunks "a b c d e" 3 1`. -/
theorem claim_C3_witness :
    ((0 : Int) < 3 ∧ (0 : Int) ≤ 1 ∧ (1 : Int) < 3) ∧
    (∃ chunks : List String,
      split_into_chunks "a b c d e" 3 1 = .ok chunks ∧
      ((List.range chunks.length).map fun k =>
          (pyWords (chunks.getD k "").data).take
            ((3 : Int) - 1).toNat).flatten =
        pyWords ("a b c d e" : String).data) :=
  ⟨⟨by decide, by decide, by decide⟩,
    claim_C3 "a b c d e" 3 1 (by decide) (by decide) (by decide)⟩

/-- C4: `split_into_chunks` fails exactly when `window_size ≤ 0` or
`overlap < 0` or `overlap ≥ window_size`; for every valid parameter pair it
returns a result instead of failing. -/
theorem claim_C4 (text : String) (window_size overlap : Int) :
    (∃ e, split_into_chunks text window_size overlap = .error e) ↔
      window_size ≤ 0 ∨ overlap < 0 ∨ overlap ≥ window_size := by
  constructor
  · rintro ⟨e, he⟩
    by_contra hcond
    push_neg at hcond
    obtain ⟨h1, h2, h3⟩ := hcond
    rw [split_into_chunks_ok text window_size overlap (by omega) (by omega)
      (by omega)] at he
    exact Except.noConfusion he
  · intro h
    rw [split_into_chunks]
    by_cases h1 : window_size ≤ 0
    · rw [if_pos h1]; exact ⟨_, rfl⟩
    · have h2 : overlap < 0 ∨ overlap ≥ window_size := by
        rcases h with h | h | h
        · omega
        · exact Or.inl h
        · exact Or.inr h
      rw [if_neg h1, if_pos h2]
      exact ⟨_, rfl⟩

/-- ASCII case folding maps no character other than the space to a space. -/
theorem toLower_eq_space {c : Char} (h : c.toLower = ' ') : c = ' ' := by
  simp only [Char.toLower] at h
  split at h
  · rename_i hcond
    obtain ⟨h1, h2⟩ := hcond
    exfalso
    generalize hg : c.toNat = n at h1 h2 h
    interval_cases n <;> exact absurd h (by decide)
  · exact h

/-- Case folding commutes with the space-to-underscore replacement. -/
theorem lower_replace_comm (c : Char) :
    Char.toLower (if c = ' ' then '_' else c) =
      if c.toLower = ' ' then '_' else c.toLower := by
  by_cases hc : c = ' '
  · subst hc; decide
  · rw [if_neg hc, if_neg fun h => hc (toLower_eq_space h)]

/-- The collection key is the underscore replacement applied after case
folding: it only depends on the case-folded persona name. -/
theorem initCollectionName_factor (n : String) :
    initCollectionName n =
      "persona_" ++ String.mk ((pyLowerChars n.data).map
        fun c => if c = ' ' then '_' else c) := by
  unfold initCollectionName pyLowerChars pyReplaceSpaceUnderscore
  refine congrArg ("persona_" ++ ·) (congrArg String.mk ?_)
  rw [List.map_map, List.map_map]
  exact List.map_congr_left fun c _ => lower_replace_comm c

/-- C5, corrected: the Vector Index default collection name, the Registry's
exists check and the Registry's delete all derive the key by the same lossy
normalization — each space becomes an underscore and letters are
case-folded, with **no trimming** — so two persona names differing only in
letter case map to the identical collection key. -/
theorem claim_C5 :
    (∀ n : String, deleteCollectionName n = initCollectionName n ∧
        existsCollectionName n = initCollectionName n) ∧
    (∀ n₁ n₂ : String, pyLowerChars n₁.data = pyLowerChars n₂.data →
        initCollectionName n₁ = initCollectionName n₂) := by
  refine ⟨fun n => ⟨rfl, rfl⟩, fun n₁ n₂ h => ?_⟩
  rw [initCollectionName_factor, initCollectionName_factor, h]

/-- C5 witness: `"Alice"` and `"alice"` differ only in letter case and map to
the same collection key. -/
theorem claim_C5_witness :
    pyLowerChars ("Alice" : String).data = pyLowerChars ("alice" : String).data ∧
    initCollectionName "Alice" = initCollectionName "alice" :=
  ⟨by decide, claim_C5.2 "Alice" "alice" (by decide)⟩

/-- C5 counterexample: the normalization does **not** trim — `" Alice "`
keeps its surrounding spaces as underscores and so collides with none of the
keys of `"Alice"`/`"alice"`, contradicting the claimed trim step and the
claimed `" Alice "` collision, identically at all three sites. -/
theorem claim_C5_counterexample :
    initCollectionName " Alice " ≠ initCollectionName "Alice" ∧
    existsCollectionName " Alice " ≠ existsCollectionName "Alice" ∧
    deleteCollectionName " Alice " ≠ deleteCollectionName "Alice" ∧
    initCollectionName " Alice " = "persona__alice_" ∧
    initCollectionName "Alice" = "persona_alice" := by decide

/-- C6, evaluated at the failing input: starting from empty persisted
storage, a successful add of one chunk through persona `"alice"`'s Vector
Index creates the collection `persona_alice` — but only in the database
rooted at the pipeline's persist directory `data/chroma_db/persona_alice`,
which is a different client path from the chroma root `data/chroma_db` that
`persona_exists` lists; so the Registry's exists check still returns
`false` even though the collection is present in persisted storage. -/
theorem claim_C6_code_bug :
    ((addTextStore ⟨fun _ => []⟩ "data/chroma_db" "alice").collections
        (pipelinePersistDir "data/chroma_db"
          (initCollectionName "alice"))).contains
      (initCollectionName "alice") = true ∧
    pipelinePersistDir "data/chroma_db" (initCollectionName "alice") ≠
      "data/chroma_db" ∧
    persona_exists (addTextStore ⟨fun _ => []⟩ "data/chroma_db" "alice")
      "data/chroma_db" "alice" = false := by decide

/-- C7, corrected: only the stats path recovers storage failures locally —
`get_collection_stats` maps any failure of the underlying count to a
document count of 0 and never propagates it — while `similarity_search`
contains no handler: it propagates every storage failure to its caller, and
succeeds exactly on a successful underlying query. -/
theorem claim_C7 :
    (∀ p c e : String, get_collection_stats p c (.error e) = ⟨p, c, 0⟩) ∧
    (∀ (p c : String) (n : Nat), get_collection_stats p c (.ok n) = ⟨p, c, n⟩) ∧
    (∀ e : String, similarity_search (.error e) = .error e) ∧
    (∀ docs : List ScoredDoc, (similarity_search (.ok docs)).isOk = true) :=
  ⟨fun _ _ _ => rfl, fun _ _ _ => rfl, fun _ => rfl, fun _ => rfl⟩

/-- C7 counterexample: a storage failure during the read-only
`similarity_search` is not recovered locally — the call does not return an
empty result; it returns the error itself. -/
theorem claim_C7_counterexample :
    (similarity_search (Except.error "storage failure")).isOk = false ∧
    similarity_search (Except.error "storage failure") =
      Except.error "storage failure" := by decide

/-- Every rendered context block begins with an opening bracket. -/
theorem render_data_cons (r : SearchResult) :
    (renderContextPart r).data =
      '[' :: ((("Source: ".data ++ (r.source.getD "unknown").data) ++
        "]\n".data) ++ r.content.data) := by
  unfold renderContextPart
  rw [String.data_append, String.data_append, String.data_append]
  rfl

/-- The rendered, separator-joined context of a nonempty result list begins
with an opening bracket, hence never equals the sentinel (which begins with
`N`). -/
theorem render_join_ne_sentinel (r : SearchResult) (rs : List SearchResult) :
    pyJoin contextSeparator ((r :: rs).map renderContextPart) ≠
      noContextSentinel := by
  intro hEq
  have hL : (pyJoin contextSeparator
      ((r :: rs).map renderContextPart)).data.head? = some '[' := by
    rw [List.map_cons]
    cases hrs : rs.map renderContextPart with
    | nil =>
      rw [show pyJoin contextSeparator [renderContextPart r] =
        renderContextPart r from rfl, render_data_cons r]
      rfl
    | cons y ys =>
      rw [show pyJoin contextSeparator (renderContextPart r :: y :: ys) =
        renderContextPart r ++ contextSeparator ++
          pyJoin contextSeparator (y :: ys) from rfl]
      rw [String.data_append, String.data_append, render_data_cons r]
      rfl
  rw [hEq] at hL
  exact absurd hL (by decide)

/-- C8: when the underlying search succeeds, `get_relevant_context` returns
the fixed "no context" sentinel exactly when the search yielded no results —
the collection being absent and the collection being empty both surface as
an empty result list, hence the identical sentinel — and otherwise returns
the rendered source-tagged blocks joined by the fixed separator in the
search's ranked order. -/
theorem claim_C8 (docs : List ScoredDoc) :
    (get_relevant_context (.ok docs) = .ok noContextSentinel ↔ docs = []) ∧
    (docs ≠ [] →
      get_relevant_context (.ok docs) =
        .ok (pyJoin contextSeparator
          ((docs.map fun d =>
            (⟨d.page_content, d.source, d.score⟩ : SearchResult)).map
            renderContextPart))) := by
  constructor
  · constructor
    · intro h
      cases docs with
      | nil => rfl
      | cons d ds =>
        exfalso
        have h2 : get_relevant_context (.ok (d :: ds)) =
            .ok (pyJoin contextSeparator
              (((d :: ds).map fun x =>
                (⟨x.page_content, x.source, x.score⟩ : SearchResult)).map
                renderContextPart)) := rfl
        rw [h2] at h
        exact render_join_ne_sentinel _ _ (Except.ok.inj h)
    · intro h
      subst h
      rfl
  · intro hne
    cases docs with
    | nil => exact absurd rfl hne
    | cons d ds => rfl

/-- C8 witness: a one-result search renders one tagged block, and an empty
search returns the sentinel. -/
theorem claim_C8_witness :
    ((get_relevant_context (.ok [⟨"hello", some "ep1", 0⟩]) =
        .ok noContextSentinel ↔
      ([⟨"hello", some "ep1", 0⟩] : List ScoredDoc) = []) ∧
     (([⟨"hello", some "ep1", 0⟩] : List ScoredDoc) ≠ [] →
       get_relevant_context (.ok [⟨"hello", some "ep1", 0⟩]) =
         .ok (pyJoin contextSeparator
           ((([⟨"hello", some "ep1", 0⟩] : List ScoredDoc).map fun d =>
             (⟨d.page_content, d.source, d.score⟩ : SearchResult)).map
             renderContextPart)))) ∧
    ([⟨"hello", some "ep1", 0⟩] : List ScoredDoc) ≠ [] ∧
    get_relevant_context (.ok []) = .ok noContextSentinel :=
  ⟨claim_C8 [⟨"hello", some "ep1", 0⟩], by decide, by decide⟩

/-- Python's `2 if len > 2 else 0` slice start, rephrased as the spec words
it. -/
theorem dropCount_eq (n : Nat) :
    (if n > 2 then 2 else 0) = if n ≤ 2 then 0 else 2 := by
  rcases Nat.lt_or_ge 2 n with h | h
  · rw [if_pos h, if_neg (by omega)]
  · rw [if_neg (by omega), if_pos (by omega)]

/-- C9, corrected: the normalizer splits a line-timed payload into
blank-line-separated blocks, drops the first two lines of each block unless
the block has two or fewer lines, drops remaining lines that are blank
(whitespace-only) **or** purely numeric after trimming, and joins the
surviving trimmed lines with single spaces; on the two-block example payload
it yields `"Hello there General Kenobi"`. -/
theorem claim_C9 :
    (∀ s : String, parse_srt_subtitles s = parse_srt_amended s) ∧
    parse_srt_subtitles
      "1\n00:00:00,000 --> 00:00:01,000\nHello there\n\n2\n00:00:01,000 --> 00:00:02,000\nGeneral Kenobi" =
      "Hello there General Kenobi" := by
  constructor
  · intro s
    unfold parse_srt_subtitles parse_srt_amended
    dsimp only
    rw [List.filter_flatMap, List.map_flatMap]
    refine congrArg (pyJoin " ") ?_
    refine congrArg (List.flatMap (splitNlNl (pyStripL s.data)))
      (funext fun block => ?_)
    rw [dropCount_eq]
  · decide

/-- C9 counterexample: a block containing a whitespace-only line — payload
`"1\nT\n \nB"` — is normalized by the code to `"B"` (the blank line is
dropped by `line.strip()` truthiness), while the algorithm exactly as the
claim words it keeps the blank line, trims it to the empty string and joins
it in, yielding `" B"`. -/
theorem claim_C9_counterexample :
    parse_srt_subtitles "1\nT\n \nB" = "B" ∧
    parse_srt_claimed "1\nT\n \nB" = " B" ∧
    parse_srt_subtitles "1\nT\n \nB" ≠ parse_srt_claimed "1\nT\n \nB" := by
  decide

/-- C10: `delete_persona` is total and Bool-valued — it never raises — and
returns `false` exactly when an attempted storage operation failed: deleting
the collection (which includes the persona being absent, since
`delete_collection` raises for a missing collection) or, when the co-located
persona metadata file exists, unlinking that file. -/
theorem claim_C10 (env : DeleteOutcomes) :
    delete_persona env = false ↔
      env.deleteCollectionFails = true ∨
      (env.personaFileExists = true ∧ env.unlinkFails = true) := by
  unfold delete_persona
  by_cases h1 : env.deleteCollectionFails <;>
    by_cases h2 : env.personaFileExists <;>
      by_cases h3 : env.unlinkFails <;> simp [h1, h2, h3]

/-- C1 witness: concrete instance `split_into_chunks "a b c d e" 3 1`. -/
theorem claim_C1_witness :
    ((0 : Int) < 3 ∧ (0 : Int) ≤ 1 ∧ (1 : Int) < 3) ∧
    (∃ chunks : List String,
      split_into_chunks "a b c d e" 3 1 = .ok chunks ∧
      chunks.length =
        ((pyWords ("a b c d e" : String).data).length + ((3 : Int) - 1).toNat - 1) /
          ((3 : Int) - 1).toNat ∧
      (∀ k, k < chunks.length →
        chunks.getD k "" =
          String.mk (pyJoinL [' ']
            (((pyWords ("a b c d e" : String).data).drop
              (k * ((3 : Int) - 1).toNat)).take ((3 : Int)).toNat))) ∧
      (("a b c d e" : String) = "" → chunks = [])) :=
  ⟨⟨by decide, by decide, by decide⟩,
    claim_C1 "a b c d e" 3 1 (by decide) (by decide) (by decide)⟩

end LocalRagPersonaSimulator
